import Mathlib

/-!
Verification of the sump-surfer ILA server core (src/software/sump-server).

The development shallowly embeds the Rust sources:
  * `devmem.rs`  : the bounds-checked volatile MMIO window (`read32` / `write32`);
  * `ila.rs`     : the command protocol driver (`exec_cmd`), the pod-register layer
    (`read_pod_reg`, `write_pod_reg`, `read_rle_sample`, `get_pod_config`),
    the no-ROM signal generator, and the service handlers
    (`get_info`, `get_capture_from_pod`, `post_configure_trigger`, `get_register`).

Machine integers are modelled as `Nat` with explicit wrap-around where Rust
release-mode arithmetic wraps: `usize` additions reduce modulo `2 ^ 64` and
`u32` / `u16` shifts and additions reduce modulo the type width.  Register
values travel as `Nat`; every value the hardware can produce fits in 32 bits,
and the decoding formulas below are stated so that they agree with the `u32`
operations of the source on that range.

The volatile backing memory is modelled as a pure load function
`load : Nat → Nat` (byte offset of a 32-bit load to the value loaded); a
`read32` that returns `some (load offset)` has performed an access, a `none`
has not.  A `write32` returning `true` has performed the store.
-/

set_option linter.unusedVariables false
set_option linter.unreachableTactic false
set_option linter.unusedTactic false

/-- Size of the `usize` value space (the target is 64-bit). -/
def USIZE : Nat := 2 ^ 64

/-- Size of the `u32` value space. -/
def U32 : Nat := 2 ^ 32

/-- Size of the `u16` value space. -/
def U16 : Nat := 2 ^ 16

/-- Rust release-mode `u32` shift left: the shift amount is masked to `% 32`
and the result wraps modulo `2 ^ 32`.  Embeds `a << b` at type `u32`. -/
def shl32 (a b : Nat) : Nat := (a <<< (b % 32)) % U32

/-- Rust `u32::checked_shl`: `none` (a panic under checked arithmetic)
whenever the shift amount is at least the bit width. -/
def checked_shl32 (a b : Nat) : Option Nat :=
  if 32 ≤ b then none else some ((a <<< b) % U32)

/-- `DevMem::read32` (devmem.rs): bounds check `offset + 4 > self.size` in
`usize` arithmetic (which wraps modulo `2 ^ 64` in release builds), then a
volatile 32-bit load at the offset.  `none` means no memory access happened;
`some (load offset)` is the value of the performed volatile load. -/
def read32 (size : Nat) (load : Nat → Nat) (offset : Nat) : Option Nat :=
  if (offset + 4) % USIZE > size then none
  else some (load offset)

/-- `DevMem::write32` (devmem.rs): same wrapping bounds check; `true` means
the volatile store was performed. -/
def write32 (size : Nat) (offset : Nat) (value : Nat) : Bool :=
  if (offset + 4) % USIZE > size then false else true

/-- `ILA_SIZE` (ila.rs): the ILA register window is 256 bytes. -/
def ILA_SIZE : Nat := 0x100

/-- `get_register` (ila.rs): the `/reg/:offset` handler checks
`offset < ILA_SIZE` and then performs the window-level `read32`. -/
def get_register (load : Nat → Nat) (offset : Nat) : Option Nat :=
  if offset < ILA_SIZE then read32 ILA_SIZE load offset else none

/-! ## Theorems for claims C2 and C9 -/

/-- C2: evaluation of the bounds check at the wrap-around offsets.  The claim
says that every `offset ≥ size − 3` makes `read32` return `None` and
`write32` return `false` with no access to backing memory; but at
`offset = 2 ^ 64 − 1` (that is, `usize::MAX`, which is `≥ 256 − 3`) the
release-mode check computes `(offset + 4) % 2 ^ 64 = 3 ≤ 256`, so `read32`
performs the out-of-bounds volatile load (and returns it) and `write32`
performs the store and returns `true`. -/
theorem read32_write32_bounds_overflow (load : Nat → Nat) :
    ILA_SIZE - 3 ≤ 2 ^ 64 - 1
      ∧ read32 ILA_SIZE load (2 ^ 64 - 1) = some (load (2 ^ 64 - 1))
      ∧ write32 ILA_SIZE (2 ^ 64 - 1) 7 = true := by
  refine ⟨by decide, ?_, ?_⟩
  · unfold read32
    rw [if_neg (by decide)]
  · unfold write32
    rw [if_neg (by decide)]

/-- C9: characterization of the `/reg/:offset` handler.  Offsets `253`, `254`,
`255` pass the service-level check `offset < 256` but fail the window-level
check `offset + 4 ≤ 256`, so exactly the offsets `0 ≤ offset ≤ 252` yield a
non-null value (namely the loaded word). -/
theorem get_register_values (load : Nat → Nat) (offset : Nat) :
    get_register load offset = if offset ≤ 252 then some (load offset) else none := by
  unfold get_register read32 ILA_SIZE USIZE
  rcases Nat.lt_or_ge offset 256 with h | h
  · have hmod : (offset + 4) % 2 ^ 64 = offset + 4 := Nat.mod_eq_of_lt (by omega)
    rw [if_pos h, hmod]
    rcases Nat.lt_or_ge offset 253 with h2 | h2
    · rw [if_neg (by omega), if_pos (by omega)]
    · rw [if_pos (by omega), if_neg (by omega)]
  · rw [if_neg (by omega), if_neg (by omega)]

/-! ## Register map and command codes (ila.rs constants) -/

/-- `REG_CMD` register offset. -/
def REG_CMD : Nat := 0x00

/-- `REG_ADDR` register offset. -/
def REG_ADDR : Nat := 0x04

/-- `REG_WDATA` register offset. -/
def REG_WDATA : Nat := 0x08

/-- `REG_CTRL` register offset. -/
def REG_CTRL : Nat := 0x0C

/-- `REG_STATUS` register offset. -/
def REG_STATUS : Nat := 0x10

/-- `REG_RDATA` register offset. -/
def REG_RDATA : Nat := 0x14

/-- `REG_HW_INFO` register offset. -/
def REG_HW_INFO : Nat := 0x1C

/-- `REG_CAP_STATUS` register offset. -/
def REG_CAP_STATUS : Nat := 0x20

/-- `CMD_ARM` command code. -/
def CMD_ARM : Nat := 0x01

/-- `CMD_RESET` command code. -/
def CMD_RESET : Nat := 0x02

/-- `CMD_INIT` command code. -/
def CMD_INIT : Nat := 0x03

/-- `CMD_RD_STATUS` command code. -/
def CMD_RD_STATUS : Nat := 0x12

/-- `CMD_WR_TRIG_TYPE` command code. -/
def CMD_WR_TRIG_TYPE : Nat := 0x23

/-- `CMD_WR_TRIG_DIG_FIELD` command code. -/
def CMD_WR_TRIG_DIG_FIELD : Nat := 0x24

/-- `CMD_WR_DIG_POST_TRIG` command code. -/
def CMD_WR_DIG_POST_TRIG : Nat := 0x2A

/-- `CMD_RD_HUB_FREQ` command code. -/
def CMD_RD_HUB_FREQ : Nat := 0x30

/-- `CMD_RD_POD_COUNT` command code. -/
def CMD_RD_POD_COUNT : Nat := 0x31

/-- `CMD_RD_POD_REG` command code. -/
def CMD_RD_POD_REG : Nat := 0x32

/-- `CMD_RD_HUB_NAME_0_3` command code. -/
def CMD_RD_HUB_NAME_0_3 : Nat := 0x36

/-- `CMD_RD_HUB_NAME_4_7` command code. -/
def CMD_RD_HUB_NAME_4_7 : Nat := 0x37

/-- `CMD_RD_HUB_NAME_8_11` command code. -/
def CMD_RD_HUB_NAME_8_11 : Nat := 0x38

/-- `CMD_WR_POD_REG` command code. -/
def CMD_WR_POD_REG : Nat := 0x40

/-- `POD_REG_HW_CFG` pod register address. -/
def POD_REG_HW_CFG : Nat := 0x00

/-- `POD_REG_TRIG_CFG` pod register address. -/
def POD_REG_TRIG_CFG : Nat := 0x03

/-- `POD_REG_TRIG_EN` pod register address. -/
def POD_REG_TRIG_EN : Nat := 0x04

/-- `POD_REG_RAM_PTR` pod register address. -/
def POD_REG_RAM_PTR : Nat := 0x08

/-- `POD_REG_RAM_DATA` pod register address. -/
def POD_REG_RAM_DATA : Nat := 0x09

/-- `POD_REG_RAM_CFG` pod register address. -/
def POD_REG_RAM_CFG : Nat := 0x0A

/-- `POD_REG_TRIGGERABLE` pod register address. -/
def POD_REG_TRIGGERABLE : Nat := 0x0E

/-- `POD_REG_NAME_0_3` pod register address. -/
def POD_REG_NAME_0_3 : Nat := 0x1D

/-- `POD_REG_NAME_4_7` pod register address. -/
def POD_REG_NAME_4_7 : Nat := 0x1E

/-- `POD_REG_NAME_8_11` pod register address. -/
def POD_REG_NAME_8_11 : Nat := 0x1F

/-- `CTRL_START` control bit. -/
def CTRL_START : Nat := 0x01

/-- `TRIG_OR_RISING` trigger type code. -/
def TRIG_OR_RISING : Nat := 0x02

/-- `TRIG_OR_FALLING` trigger type code. -/
def TRIG_OR_FALLING : Nat := 0x03

/-- `TRIG_EXT_RISING` trigger type code. -/
def TRIG_EXT_RISING : Nat := 0x06

/-! ## MMIO-level command protocol (`IlaState::exec_cmd`)

The hardware behind the window is modelled by the value each volatile load
returns.  `STATUS` is read repeatedly, so its observed value is indexed by the
number of STATUS reads performed so far; `RDATA` is read at most once. -/

/-- Simulated MMIO backend for one `exec_cmd` invocation: `status i` is the
value the i-th volatile load of `REG_STATUS` returns, `rdata` the value a
load of `REG_RDATA` returns. -/
structure MmioSim where
  status : Nat → Nat
  rdata : Nat

/-- Observable outcome of one `exec_cmd` invocation: the 32-bit stores
performed (offset, value, in order), the number of STATUS loads, whether
RDATA was loaded, and the returned value. -/
structure ExecTrace where
  writes : List (Nat × Nat)
  statusReads : Nat
  rdataRead : Bool
  result : Option Nat
deriving DecidableEq, Repr

/-- The store performed by `mem.write32 off v` on the 256-byte window:
recorded when the bounds check passes. -/
def writeEv (off v : Nat) : List (Nat × Nat) :=
  if write32 ILA_SIZE off v then [(off, v)] else []

/-- The polling loop of `exec_cmd`: up to `fuel` further STATUS reads, `i`
STATUS reads already performed.  Returns (result, total STATUS reads,
RDATA read performed).  Mirrors ila.rs lines 109-124: DONE is bit 1
(`status & 0x02`), ERR is bit 2 (`status & 0x04`); on DONE with ERR the
command fails without touching RDATA, on DONE without ERR the RDATA load is
returned, and exhaustion of the loop returns failure. -/
def pollLoop (sim : MmioSim) : Nat → Nat → Option Nat × Nat × Bool
  | 0, i => (none, i, false)
  | fuel + 1, i =>
    match read32 ILA_SIZE (fun _ => sim.status i) REG_STATUS with
    | none => (none, i + 1, false)
    | some status =>
      if status &&& 0x02 ≠ 0 then
        if status &&& 0x04 ≠ 0 then
          (none, i + 1, false)
        else
          (read32 ILA_SIZE (fun _ => sim.rdata) REG_RDATA, i + 1, true)
      else
        pollLoop sim fuel (i + 1)

/-- `IlaState::exec_cmd` (ila.rs lines 97-125): write `CMD`, `ADDR`, `WDATA`,
then `CTRL = START`, then poll `STATUS` up to 100000 times. -/
def exec_cmd (sim : MmioSim) (cmd addr wdata : Nat) : ExecTrace :=
  let writes := writeEv REG_CMD cmd ++ writeEv REG_ADDR addr
    ++ writeEv REG_WDATA wdata ++ writeEv REG_CTRL CTRL_START
  let r := pollLoop sim 100000 0
  ⟨writes, r.2.1, r.2.2, r.1⟩

/-! ## Lemmas about the polling loop, and the claim C1 theorem -/

/-- In-bounds window reads always succeed and return the loaded value. -/
theorem read32_window (f : Nat → Nat) (off : Nat) (h : off + 4 ≤ 256) :
    read32 ILA_SIZE f off = some (f off) := by
  unfold read32 ILA_SIZE USIZE
  rw [Nat.mod_eq_of_lt (by omega), if_neg (by omega)]

/-- In-bounds window writes are recorded as a single store event. -/
theorem writeEv_window (off v : Nat) (h : off + 4 ≤ 256) :
    writeEv off v = [(off, v)] := by
  have hw : write32 ILA_SIZE off v = true := by
    unfold write32 ILA_SIZE USIZE
    rw [Nat.mod_eq_of_lt (by omega), if_neg (by omega)]
  unfold writeEv
  rw [hw, if_pos rfl]

/-- One step of the polling loop, with the STATUS read resolved. -/
theorem pollLoop_succ (sim : MmioSim) (fuel i : Nat) :
    pollLoop sim (fuel + 1) i =
      if sim.status i &&& 0x02 ≠ 0 then
        if sim.status i &&& 0x04 ≠ 0 then (none, i + 1, false)
        else (some sim.rdata, i + 1, true)
      else pollLoop sim fuel (i + 1) := by
  show (match read32 ILA_SIZE (fun _ => sim.status i) REG_STATUS with
    | none => (none, i + 1, false)
    | some status =>
      if status &&& 0x02 ≠ 0 then
        if status &&& 0x04 ≠ 0 then (none, i + 1, false)
        else (read32 ILA_SIZE (fun _ => sim.rdata) REG_RDATA, i + 1, true)
      else pollLoop sim fuel (i + 1)) = _
  rw [read32_window _ _ (by norm_num [REG_STATUS]),
    read32_window _ _ (by norm_num [REG_RDATA])]

/-- The polling loop performs at most `fuel` further STATUS reads. -/
theorem pollLoop_reads_le (sim : MmioSim) :
    ∀ fuel i, (pollLoop sim fuel i).2.1 ≤ i + fuel := by
  intro fuel
  induction fuel with
  | zero => intro i; simp [pollLoop]
  | succ f ih =>
    intro i
    rw [pollLoop_succ]
    by_cases h2 : sim.status i &&& 0x02 ≠ 0
    · by_cases h4 : sim.status i &&& 0x04 ≠ 0 <;> simp [h2, h4] <;> omega
    · rw [if_neg h2]
      have := ih (i + 1)
      omega

/-- If no polled STATUS value has DONE set, the loop exhausts its fuel,
reads STATUS once per iteration and fails without touching RDATA. -/
theorem pollLoop_timeout (sim : MmioSim) :
    ∀ fuel i, (∀ j, j < fuel → sim.status (i + j) &&& 0x02 = 0) →
      pollLoop sim fuel i = (none, i + fuel, false) := by
  intro fuel
  induction fuel with
  | zero => intro i _; simp [pollLoop]
  | succ f ih =>
    intro i h
    rw [pollLoop_succ]
    have h0 : sim.status i &&& 0x02 = 0 := by
      have := h 0 (by omega); simpa using this
    rw [if_neg (by simp [h0])]
    have := ih (i + 1) (fun j hj => by
      have e : i + 1 + j = i + (j + 1) := by omega
      rw [e]
      exact h (j + 1) (by omega))
    rw [this]
    have e2 : i + 1 + f = i + (f + 1) := by omega
    rw [e2]

/-- If the k-th poll (0-based) is the first to observe DONE and `k` is within
the fuel budget, the loop stops there: with ERR set it fails without reading
RDATA, with ERR clear it returns the RDATA value; either way exactly `k + 1`
STATUS reads happen. -/
theorem pollLoop_first_done (sim : MmioSim) :
    ∀ k fuel i, k < fuel → (∀ j, j < k → sim.status (i + j) &&& 0x02 = 0) →
      sim.status (i + k) &&& 0x02 ≠ 0 →
      pollLoop sim fuel i =
        if sim.status (i + k) &&& 0x04 ≠ 0 then (none, i + k + 1, false)
        else (some sim.rdata, i + k + 1, true) := by
  intro k
  induction k with
  | zero =>
    intro fuel i hk _ hdone
    obtain ⟨f, rfl⟩ : ∃ f, fuel = f + 1 := ⟨fuel - 1, by omega⟩
    rw [pollLoop_succ]
    rw [if_pos (show sim.status i &&& 0x02 ≠ 0 by simpa using hdone)]
    simp
  | succ k ih =>
    intro fuel i hk h hdone
    obtain ⟨f, rfl⟩ : ∃ f, fuel = f + 1 := ⟨fuel - 1, by omega⟩
    rw [pollLoop_succ]
    have h0 : sim.status i &&& 0x02 = 0 := by
      have := h 0 (by omega); simpa using this
    rw [if_neg (by simp [h0])]
    have hrec := ih f (i + 1) (by omega)
      (fun j hj => by
        have e : i + 1 + j = i + (j + 1) := by omega
        rw [e]
        exact h (j + 1) (by omega))
      (by
        have e : i + 1 + k = i + (k + 1) := by omega
        rw [e]; exact hdone)
    rw [hrec]
    have e : i + 1 + k = i + (k + 1) := by omega
    rw [e]

/-- C1: the `exec_cmd` command protocol.  After storing CMD, ADDR, WDATA and
CTRL=START (in that order), the driver reads STATUS at most 100000 times;
if no poll observes DONE (bit 1) it returns `none` after exactly 100000
STATUS reads; at the first poll observing DONE it returns `none` without
reading RDATA when ERR (bit 2) is also set, and otherwise returns the value
loaded from RDATA. -/
theorem exec_cmd_polling_spec (sim : MmioSim) (cmd addr wdata : Nat) :
    (exec_cmd sim cmd addr wdata).writes =
        [(REG_CMD, cmd), (REG_ADDR, addr), (REG_WDATA, wdata), (REG_CTRL, CTRL_START)]
    ∧ (exec_cmd sim cmd addr wdata).statusReads ≤ 100000
    ∧ ((∀ i, i < 100000 → sim.status i &&& 0x02 = 0) →
        (exec_cmd sim cmd addr wdata).result = none
        ∧ (exec_cmd sim cmd addr wdata).statusReads = 100000
        ∧ (exec_cmd sim cmd addr wdata).rdataRead = false)
    ∧ (∀ k, k < 100000 → (∀ j, j < k → sim.status j &&& 0x02 = 0) →
        sim.status k &&& 0x02 ≠ 0 →
        ((sim.status k &&& 0x04 ≠ 0 →
            (exec_cmd sim cmd addr wdata).result = none
            ∧ (exec_cmd sim cmd addr wdata).rdataRead = false
            ∧ (exec_cmd sim cmd addr wdata).statusReads = k + 1)
         ∧ (sim.status k &&& 0x04 = 0 →
            (exec_cmd sim cmd addr wdata).result = some sim.rdata
            ∧ (exec_cmd sim cmd addr wdata).rdataRead = true
            ∧ (exec_cmd sim cmd addr wdata).statusReads = k + 1))) := by
  refine ⟨?_, ?_, ?_, ?_⟩
  · show writeEv REG_CMD cmd ++ writeEv REG_ADDR addr
      ++ writeEv REG_WDATA wdata ++ writeEv REG_CTRL CTRL_START = _
    rw [writeEv_window _ _ (by norm_num [REG_CMD]),
      writeEv_window _ _ (by norm_num [REG_ADDR]),
      writeEv_window _ _ (by norm_num [REG_WDATA]),
      writeEv_window _ _ (by norm_num [REG_CTRL])]
    rfl
  · show (pollLoop sim 100000 0).2.1 ≤ 100000
    simpa using pollLoop_reads_le sim 100000 0
  · intro h
    have := pollLoop_timeout sim 100000 0 (fun j hj => by simpa using h j hj)
    refine ⟨?_, ?_, ?_⟩ <;>
      · show _ = _
        unfold exec_cmd
        rw [this]
        all_goals simp
  · intro k hk h hdone
    have hfirst := pollLoop_first_done sim k 100000 0 hk
      (fun j hj => by simpa using h j hj) (by simpa using hdone)
    constructor
    · intro herr
      rw [if_pos (by simpa using herr)] at hfirst
      refine ⟨?_, ?_, ?_⟩ <;>
        · show _ = _
          unfold exec_cmd
          rw [hfirst]
          all_goals simp
    · intro herr
      rw [if_neg (by simp [herr])] at hfirst
      refine ⟨?_, ?_, ?_⟩ <;>
        · show _ = _
          unfold exec_cmd
          rw [hfirst]
          all_goals simp

/-- A simulated device whose STATUS shows DONE without ERR immediately. -/
def simDoneOk : MmioSim := ⟨fun _ => 0x02, 42⟩

/-- Witness for C1: on a device whose first STATUS poll shows DONE and no
ERR, `exec_cmd` returns the RDATA value after exactly one STATUS read. -/
theorem exec_cmd_polling_spec_witness :
    (exec_cmd simDoneOk 0x10 0 0).result = some 42
    ∧ (exec_cmd simDoneOk 0x10 0 0).rdataRead = true
    ∧ (exec_cmd simDoneOk 0x10 0 0).statusReads = 1 := by
  have h := (exec_cmd_polling_spec simDoneOk 0x10 0 0).2.2.2 0 (by norm_num)
    (fun j hj => by omega) (by decide)
  exact h.2 (by decide)

/-! ## Command-level layer

Claim C1 established that one `exec_cmd` invocation is, observably, one
(cmd, addr, wdata) request answered by `some rdata` or `none`.  The driver
and service functions are therefore embedded over a scripted device that maps
the index of the `exec_cmd` call (0-based, in issue order) and the request to
the result of that call; the index lets one execution observe a stateful
device.  Each embedded function threads the call index and also returns the
list of requests it issued, so that ordering and abort behaviour are part of
the model. -/

/-- One `exec_cmd` request: the values written to CMD, ADDR and WDATA. -/
structure Req where
  cmd : Nat
  addr : Nat
  wdata : Nat
deriving DecidableEq, Repr

/-- A scripted device: the result of the k-th `exec_cmd` call, given its
request. -/
def Dev : Type := Nat → Req → Option Nat

/-- Issue one command: one request, one result, the call index advances. -/
def issueCmd (dev : Dev) (k : Nat) (r : Req) : Option Nat × Nat × List Req :=
  (dev k r, k + 1, [r])

/-- The serial-bus address composition `hub<<16 | pod<<8 | reg` (ila.rs
lines 129 and 135; `hub` and `pod` are `u8`, so no field overlaps). -/
def podAddr (hub pod reg : Nat) : Nat :=
  ((hub <<< 16) ||| (pod <<< 8)) ||| reg

/-- `IlaState::read_pod_reg` (ila.rs lines 128-131). -/
def read_pod_reg (dev : Dev) (k hub pod reg : Nat) : Option Nat × Nat × List Req :=
  issueCmd dev k ⟨CMD_RD_POD_REG, podAddr hub pod reg, 0⟩

/-- `IlaState::write_pod_reg` (ila.rs lines 134-137): issues `WR_POD_REG`
and reports whether the command completed. -/
def write_pod_reg (dev : Dev) (k hub pod reg value : Nat) : Bool × Nat × List Req :=
  let r := issueCmd dev k ⟨CMD_WR_POD_REG, podAddr hub pod reg, value⟩
  (r.1.isSome, r.2)

/-- `RleSample` (ila.rs). -/
structure RleSample where
  address : Nat
  code : Nat
  timestamp : Nat
  data : Nat
deriving DecidableEq, Repr

/-- `IlaState::read_rle_sample` (ila.rs lines 173-195).  Note that the two
`write_pod_reg` calls on `RAM_PTR` have their results discarded by the
source (no `?`), so their failure does not abort the read; only the two
`RAM_DATA` reads propagate failure.  The decode uses the release-mode `u32`
shifts (`shl32`, and shift amounts masked `% 32`). -/
def read_rle_sample (dev : Dev) (k hub pod addr ts_bits : Nat) :
    Option RleSample × Nat × List Req :=
  let w1 := write_pod_reg dev k hub pod POD_REG_RAM_PTR addr
  match read_pod_reg dev w1.2.1 hub pod POD_REG_RAM_DATA with
  | (none, k2, t2) => (none, k2, w1.2.2 ++ t2)
  | (some data, k2, t2) =>
    let w2 := write_pod_reg dev k2 hub pod POD_REG_RAM_PTR ((1 <<< 20) ||| addr)
    match read_pod_reg dev w2.2.1 hub pod POD_REG_RAM_DATA with
    | (none, k4, t4) => (none, k4, w1.2.2 ++ t2 ++ w2.2.2 ++ t4)
    | (some hi, k4, t4) =>
      let ts_mask := shl32 1 ts_bits - 1
      let code := (hi >>> (ts_bits % 32)) &&& 0x3
      let timestamp := hi &&& ts_mask
      (some ⟨addr, code, timestamp, data⟩, k4, w1.2.2 ++ t2 ++ w2.2.2 ++ t4)

/-- `IlaState::get_pod_config` (ila.rs lines 198-205): read `RAM_CFG` with
`unwrap_or(0)` and decode `(ts_bits, data_bits, ram_depth)`; the depth is
`1u32 << depth_bits` (release-mode shift). -/
def get_pod_config (dev : Dev) (k hub pod : Nat) :
    (Nat × Nat × Nat) × Nat × List Req :=
  let r := read_pod_reg dev k hub pod POD_REG_RAM_CFG
  let ram_cfg := r.1.getD 0
  let depth_bits := ram_cfg &&& 0xFF
  let data_bits := (ram_cfg >>> 8) &&& 0xFFFF
  let ts_bits := (ram_cfg >>> 24) &&& 0xFF
  let ram_depth := shl32 1 depth_bits
  ((ts_bits, data_bits, ram_depth), r.2)

/-! ## Test devices and shift lemmas -/

/-- Device on which every command fails. -/
def devNone : Dev := fun _ _ => none

/-- Device on which every command succeeds with a fixed RDATA value. -/
def constDev (v : Nat) : Dev := fun _ _ => some v

/-- Device whose first command (call index 0) fails and whose later commands
return 5. -/
def devFailFirstWrite : Dev := fun k _ => if k = 0 then none else some 5

/-- Device scripting one `read_rle_sample` run from call index 0: the low
RAM_DATA read (call 1) returns `lo`, the high one (call 3) returns `hi`. -/
def rleDev (lo hi : Nat) : Dev :=
  fun k _ => if k = 1 then some lo else if k = 3 then some hi else some 0

/-- The release-mode `u32` shift of 1 is the power of two of the masked
shift amount. -/
theorem shl32_one (b : Nat) : shl32 1 b = 2 ^ (b % 32) := by
  unfold shl32 U32
  rw [Nat.one_shiftLeft]
  exact Nat.mod_eq_of_lt (Nat.pow_lt_pow_right (by norm_num) (Nat.mod_lt _ (by norm_num)))

/-- Below the bit width, the `u32` shift of 1 agrees with the power of two. -/
theorem shl32_one_lt (b : Nat) (h : b < 32) : shl32 1 b = 2 ^ b := by
  rw [shl32_one, Nat.mod_eq_of_lt h]

/-! ## Claim C3: `read_rle_sample` -/

/-- C3 counterexample: on a device whose very first command (the `RAM_PTR`
page-0 write) fails while both `RAM_DATA` reads succeed, `read_rle_sample`
still returns a sample, because the source discards the results of the two
`write_pod_reg` calls; the claim as stated (any failing sub-step yields
`None`) is therefore false. -/
theorem read_rle_sample_ignores_write_failure :
    devFailFirstWrite 0 ⟨CMD_WR_POD_REG, podAddr 0 0 POD_REG_RAM_PTR, 0⟩ = none
    ∧ ((read_rle_sample devFailFirstWrite 0 0 0 0 4).1).isSome = true := by
  constructor
  · rfl
  · decide

/-- C3 amended: the two `RAM_PTR` write failures are ignored; a failure of
either `RAM_DATA` read yields `None`; on success the sample carries
`address = addr`, `data` = the low word and, for `ts_bits < 32`,
`timestamp = hi &&& (2 ^ ts_bits − 1)` and `code = (hi >>> ts_bits) &&& 3`.
The four issued requests are the page-0 `RAM_PTR` write, a `RAM_DATA` read,
the page-1 `RAM_PTR` write and a second `RAM_DATA` read, truncated at a
failing read. -/
theorem read_rle_sample_amended (dev : Dev) (k hub pod addr ts_bits lo hi : Nat)
    (hts : ts_bits < 32) :
    (dev (k + 1) ⟨CMD_RD_POD_REG, podAddr hub pod POD_REG_RAM_DATA, 0⟩ = none →
      read_rle_sample dev k hub pod addr ts_bits
        = (none, k + 2,
            [⟨CMD_WR_POD_REG, podAddr hub pod POD_REG_RAM_PTR, addr⟩,
             ⟨CMD_RD_POD_REG, podAddr hub pod POD_REG_RAM_DATA, 0⟩]))
    ∧ (dev (k + 1) ⟨CMD_RD_POD_REG, podAddr hub pod POD_REG_RAM_DATA, 0⟩ = some lo →
       dev (k + 3) ⟨CMD_RD_POD_REG, podAddr hub pod POD_REG_RAM_DATA, 0⟩ = none →
      read_rle_sample dev k hub pod addr ts_bits
        = (none, k + 4,
            [⟨CMD_WR_POD_REG, podAddr hub pod POD_REG_RAM_PTR, addr⟩,
             ⟨CMD_RD_POD_REG, podAddr hub pod POD_REG_RAM_DATA, 0⟩,
             ⟨CMD_WR_POD_REG, podAddr hub pod POD_REG_RAM_PTR, (1 <<< 20) ||| addr⟩,
             ⟨CMD_RD_POD_REG, podAddr hub pod POD_REG_RAM_DATA, 0⟩]))
    ∧ (dev (k + 1) ⟨CMD_RD_POD_REG, podAddr hub pod POD_REG_RAM_DATA, 0⟩ = some lo →
       dev (k + 3) ⟨CMD_RD_POD_REG, podAddr hub pod POD_REG_RAM_DATA, 0⟩ = some hi →
      read_rle_sample dev k hub pod addr ts_bits
        = (some ⟨addr, (hi >>> ts_bits) &&& 0x3, hi &&& (2 ^ ts_bits - 1), lo⟩, k + 4,
            [⟨CMD_WR_POD_REG, podAddr hub pod POD_REG_RAM_PTR, addr⟩,
             ⟨CMD_RD_POD_REG, podAddr hub pod POD_REG_RAM_DATA, 0⟩,
             ⟨CMD_WR_POD_REG, podAddr hub pod POD_REG_RAM_PTR, (1 <<< 20) ||| addr⟩,
             ⟨CMD_RD_POD_REG, podAddr hub pod POD_REG_RAM_DATA, 0⟩])) := by
  refine ⟨?_, ?_, ?_⟩
  · intro h1
    simp [read_rle_sample, read_pod_reg, write_pod_reg, issueCmd, h1]
  · intro h1 h3
    simp only [read_rle_sample, read_pod_reg, write_pod_reg, issueCmd, h1]
    have e : k + 1 + 1 + 1 = k + 3 := by omega
    simp only [e, h3]
    simp
  · intro h1 h3
    simp only [read_rle_sample, read_pod_reg, write_pod_reg, issueCmd, h1]
    have e : k + 1 + 1 + 1 = k + 3 := by omega
    simp only [e, h3]
    rw [shl32_one_lt _ hts, Nat.mod_eq_of_lt hts]
    simp

/-- Witness for the amended C3: a fully successful scripted run decodes the
sample from the two read words. -/
theorem read_rle_sample_amended_witness :
    read_rle_sample (rleDev 11 7) 0 0 0 0 4
      = (some ⟨0, 0, 7, 11⟩, 4,
          [⟨CMD_WR_POD_REG, podAddr 0 0 POD_REG_RAM_PTR, 0⟩,
           ⟨CMD_RD_POD_REG, podAddr 0 0 POD_REG_RAM_DATA, 0⟩,
           ⟨CMD_WR_POD_REG, podAddr 0 0 POD_REG_RAM_PTR, (1 <<< 20) ||| 0⟩,
           ⟨CMD_RD_POD_REG, podAddr 0 0 POD_REG_RAM_DATA, 0⟩]) := by
  have h := (read_rle_sample_amended (rleDev 11 7) 0 0 0 0 4 11 7 (by norm_num)).2.2
    rfl rfl
  simpa using h

/-! ## Claim C4: `get_pod_config` -/

/-- C4 counterexample: when the `RAM_CFG` read fails, `get_pod_config`
returns `ram_depth = 1 << 0 = 1`, not 0; so the claim that all three fields
are 0 on failure is false. -/
theorem get_pod_config_offline_depth_one :
    devNone 0 ⟨CMD_RD_POD_REG, podAddr 0 0 POD_REG_RAM_CFG, 0⟩ = none
    ∧ (get_pod_config devNone 0 0 0).1 = (0, 0, 1)
    ∧ ((0, 0, 1) : Nat × Nat × Nat) ≠ (0, 0, 0) := by
  refine ⟨rfl, by decide, by decide⟩

/-- C4 amended: on a failed `RAM_CFG` read `get_pod_config` returns
`(ts_bits, data_bits, ram_depth) = (0, 0, 1)` (the zero word still passes
through `1 << depth_bits`); on a successful read of `v` with
`v &&& 0xFF < 32` it returns `((v >>> 24) &&& 0xFF, (v >>> 8) &&& 0xFFFF,
2 ^ (v &&& 0xFF))`. -/
theorem get_pod_config_amended (dev : Dev) (k hub pod v : Nat) :
    (dev k ⟨CMD_RD_POD_REG, podAddr hub pod POD_REG_RAM_CFG, 0⟩ = none →
      (get_pod_config dev k hub pod).1 = (0, 0, 1))
    ∧ (dev k ⟨CMD_RD_POD_REG, podAddr hub pod POD_REG_RAM_CFG, 0⟩ = some v →
       v &&& 0xFF < 32 →
      (get_pod_config dev k hub pod).1
        = ((v >>> 24) &&& 0xFF, (v >>> 8) &&& 0xFFFF, 2 ^ (v &&& 0xFF))) := by
  constructor
  · intro h
    simp [get_pod_config, read_pod_reg, issueCmd, h]
    decide
  · intro h hlt
    simp [get_pod_config, read_pod_reg, issueCmd, h]
    exact shl32_one_lt _ hlt

/-- Witness for the amended C4: a successful read of `0x10000808` decodes to
16 timestamp bits, 8 data bits and a RAM depth of 256. -/
theorem get_pod_config_amended_witness :
    (get_pod_config (constDev 0x10000808) 0 0 0).1 = (16, 8, 256) := by
  have h := (get_pod_config_amended (constDev 0x10000808) 0 0 0 0x10000808).2
    rfl (by decide)
  simpa using h

/-! ## Claim C10: unvalidated shifts -/

/-- C10: when a pod reports `depth_bits = v &&& 0xFF ≥ 32`, the source
computes `1u32 << depth_bits`, an overflowing shift (`checked_shl` refuses
it, that is, a panic under checked arithmetic); `get_pod_config` performs it
unvalidated and in release mode produces the wrapped value
`2 ^ (depth_bits % 32)`, which differs from the intended `2 ^ depth_bits`.
Likewise `read_rle_sample` computes `ts_mask = (1u32 << ts_bits) − 1`
unvalidated for a pod-reported `ts_bits ≥ 32`, so the decoded sample uses
the wrapped mask. -/
theorem shift_overflow_unvalidated (v t lo hi : Nat)
    (hv : 32 ≤ v &&& 0xFF) (ht : 32 ≤ t) :
    checked_shl32 1 (v &&& 0xFF) = none
    ∧ (get_pod_config (constDev v) 0 0 0).1.2.2 = 2 ^ ((v &&& 0xFF) % 32)
    ∧ 2 ^ ((v &&& 0xFF) % 32) ≠ 2 ^ (v &&& 0xFF)
    ∧ checked_shl32 1 t = none
    ∧ (read_rle_sample (rleDev lo hi) 0 0 0 0 t).1
        = some ⟨0, (hi >>> (t % 32)) &&& 0x3, hi &&& (2 ^ (t % 32) - 1), lo⟩ := by
  refine ⟨?_, ?_, ?_, ?_, ?_⟩
  · unfold checked_shl32
    rw [if_pos hv]
  · simp [get_pod_config, read_pod_reg, issueCmd, constDev]
    exact shl32_one _
  · have hlt : 2 ^ ((v &&& 0xFF) % 32) < 2 ^ (v &&& 0xFF) :=
      Nat.pow_lt_pow_right (by norm_num)
        (lt_of_lt_of_le (Nat.mod_lt _ (by norm_num)) hv)
    exact Nat.ne_of_lt hlt
  · unfold checked_shl32
    rw [if_pos ht]
  · simp [read_rle_sample, read_pod_reg, write_pod_reg, issueCmd, rleDev, shl32_one]

/-- Witness for C10 at `depth_bits = 32`, `ts_bits = 32`: the checked shift
refuses, the release-mode RAM depth collapses to 1, and the sample mask
collapses to 0. -/
theorem shift_overflow_unvalidated_witness :
    checked_shl32 1 32 = none
    ∧ (get_pod_config (constDev 0x20) 0 0 0).1.2.2 = 1
    ∧ (read_rle_sample (rleDev 9 7) 0 0 0 0 32).1 = some ⟨0, 3, 0, 9⟩ := by
  have h := shift_overflow_unvalidated 0x20 32 9 7 (by decide) (by decide)
  refine ⟨?_, ?_, ?_⟩
  · have := h.1
    norm_num at this ⊢
    exact this
  · have := h.2.1
    norm_num at this
    exact this
  · have := h.2.2.2.2
    norm_num at this
    exact this

/-! ## No-ROM signal generator (`generate_norom_signals`) -/

/-- `SignalInfo` (ila.rs). -/
structure SignalInfo where
  name : String
  bit_high : Nat
  bit_low : Nat
  signal_type : String
deriving DecidableEq, Repr

/-- Embeds Rust `str::trim`: drop whitespace from both ends.  Modelled over
the character list (structurally, unlike `String.trim`, whose byte-level
implementation does not reduce in the kernel); it agrees with the library
trim on the ASCII names the device produces. -/
def strTrim (s : String) : String :=
  ⟨((s.toList.dropWhile Char.isWhitespace).reverse.dropWhile Char.isWhitespace).reverse⟩

/-- Embeds Rust `str::contains` (substring containment): the pattern's
character list occurs contiguously in the subject's character list. -/
def strContains (s pat : String) : Bool :=
  decide (pat.toList <:+: s.toList)

/-- `generate_norom_signals` (ila.rs lines 213-325).  The window counts
`(data_bits + 31) / 32` etc. are computed at type `u16`, so the additions
wrap modulo `2 ^ 16` (relevant only for `data_bits > 65504`); the products
`i * 32` and `(i + 1) * 32 - 1` never exceed `u16` range for indices the
loops produce, so they are embedded as plain naturals. -/
def generate_norom_signals (pod_name : String) (data_bits : Nat)
    (view_dwords view_words view_bytes view_bits rle_disable : Bool) :
    String × List SignalInfo :=
  let pod_name_trimmed := strTrim pod_name
  let view_mode : String :=
    if view_dwords then "dwords"
    else if view_words then "words"
    else if view_bytes then "bytes"
    else if view_bits then "bits"
    else "dwords"
  let signal_type : String := if rle_disable then "analog" else "vector"
  if strContains pod_name_trimmed "adc" && strContains pod_name_trimmed "iq"
      && decide (25 ≤ data_bits) then
    ("iq",
      [⟨"adc_i[11:0]", 11, 0, "analog"⟩,
       ⟨"adc_q[11:0]", 23, 12, "analog"⟩,
       ⟨"adc_valid", 24, 24, "bit"⟩])
  else
    match view_mode with
    | "dwords" =>
      let num_dwords := ((data_bits + 31) % U16) / 32
      (view_mode, (List.range num_dwords).map (fun i =>
        let bit_low := i * 32
        let bit_high := min ((i + 1) * 32 - 1) (data_bits - 1)
        ⟨if num_dwords = 1 then
            pod_name_trimmed ++ "[" ++ toString bit_high ++ ":0]"
          else
            pod_name_trimmed ++ "_d" ++ toString i ++ "[" ++ toString bit_high
              ++ ":" ++ toString bit_low ++ "]",
          bit_high, bit_low, signal_type⟩))
    | "words" =>
      let num_words := ((data_bits + 15) % U16) / 16
      (view_mode, (List.range num_words).map (fun i =>
        let bit_low := i * 16
        let bit_high := min ((i + 1) * 16 - 1) (data_bits - 1)
        ⟨if num_words = 1 then
            pod_name_trimmed ++ "[" ++ toString bit_high ++ ":0]"
          else
            pod_name_trimmed ++ "_w" ++ toString i ++ "[" ++ toString bit_high
              ++ ":" ++ toString bit_low ++ "]",
          bit_high, bit_low, signal_type⟩))
    | "bytes" =>
      let num_bytes := ((data_bits + 7) % U16) / 8
      (view_mode, (List.range num_bytes).map (fun i =>
        let bit_low := i * 8
        let bit_high := min ((i + 1) * 8 - 1) (data_bits - 1)
        ⟨pod_name_trimmed ++ "_b" ++ toString i ++ "[" ++ toString bit_high
            ++ ":" ++ toString bit_low ++ "]",
          bit_high, bit_low, "vector"⟩))
    | "bits" =>
      (view_mode, (List.range data_bits).map (fun i =>
        ⟨pod_name_trimmed ++ "[" ++ toString i ++ "]", i, i, "bit"⟩))
    | _ => (view_mode, [])

/-! ## Claim C6: tiling of generated signals -/

/-- The window-slicing pattern shared by the dwords/words/bytes/bits arms of
`generate_norom_signals`: `N = ceil(db / w)` windows of width `w`, the last
clipped to `db − 1`, tile the bit range `[0, db)` without gaps or overlaps
and stay below `db`. -/
theorem windows_tile (w db N : Nat) (hw : 0 < w) (hdb : 0 < db)
    (hN : N = (db + w - 1) / w)
    (f : Nat → SignalInfo)
    (hf : ∀ i, i < N →
      (f i).bit_low = i * w ∧ (f i).bit_high = min ((i + 1) * w - 1) (db - 1)) :
    (∀ s ∈ (List.range N).map f, s.bit_low ≤ s.bit_high ∧ s.bit_high < db)
    ∧ (∀ b, b < db → ∃ s ∈ (List.range N).map f, s.bit_low ≤ b ∧ b ≤ s.bit_high)
    ∧ List.Pairwise (fun s t => s.bit_high < t.bit_low ∨ t.bit_high < s.bit_low)
        ((List.range N).map f) := by
  have hNw : N * w ≤ db + w - 1 := by
    rw [hN]; exact Nat.div_mul_le_self _ _
  refine ⟨?_, ?_, ?_⟩
  · intro s hs
    rw [List.mem_map] at hs
    obtain ⟨i, hi, rfl⟩ := hs
    rw [List.mem_range] at hi
    obtain ⟨hlow, hhigh⟩ := hf i hi
    rw [hlow, hhigh]
    have h1 : (i + 1) * w ≤ N * w := Nat.mul_le_mul_right _ hi
    have h2 : (i + 1) * w = i * w + w := by ring
    constructor
    · exact Nat.le_min.mpr ⟨by omega, by omega⟩
    · have h3 := Nat.min_le_right ((i + 1) * w - 1) (db - 1)
      omega
  · intro b hb
    have hq : w * (b / w) + b % w = b := Nat.div_add_mod b w
    have hr : b % w < w := Nat.mod_lt _ hw
    have hc : w * (b / w) = (b / w) * w := Nat.mul_comm _ _
    have hiN : b / w < N := by
      rw [hN]
      have e : db + w - 1 = (db - 1) + w := by omega
      rw [e, Nat.add_div_right _ hw]
      have := Nat.div_le_div_right (c := w) (show b ≤ db - 1 by omega)
      omega
    obtain ⟨hlow, hhigh⟩ := hf (b / w) hiN
    refine ⟨f (b / w), List.mem_map_of_mem f (List.mem_range.mpr hiN), ?_, ?_⟩
    · rw [hlow]; omega
    · rw [hhigh]
      refine Nat.le_min.mpr ⟨?_, by omega⟩
      have h2 : (b / w + 1) * w = (b / w) * w + w := by ring
      omega
  · rw [List.pairwise_map]
    have hp := List.pairwise_lt_range N
    refine hp.imp_of_mem ?_
    intro a b ha hb hab
    rw [List.mem_range] at ha hb
    obtain ⟨hla, hha⟩ := hf a ha
    obtain ⟨hlb, hhb⟩ := hf b hb
    left
    rw [hha, hlb]
    have h2 : (a + 1) * w ≤ b * w := Nat.mul_le_mul_right _ (by omega)
    have h4 : 1 * w ≤ (a + 1) * w := Nat.mul_le_mul_right _ (by omega)
    have h3 := Nat.min_le_left ((a + 1) * w - 1) (db - 1)
    omega

/-- C6 counterexample: the claim quantifies over every pod name, but for a
name containing "adc" and "iq" with `data_bits = 33 ≥ 25` the generator
takes the ADC I/Q special case and returns three fixed signals covering only
bits 0..24, so bit 25 < 33 is covered by no signal: the tiling claim fails. -/
theorem norom_signals_adc_iq_gap :
    (25 : Nat) < 33
    ∧ (∀ s ∈ (generate_norom_signals "adc_iq" 33 false false false false false).2,
        ¬(s.bit_low ≤ 25 ∧ 25 ≤ s.bit_high)) := by
  constructor
  · decide
  · decide

/-- C6 amended: for every pod name whose trimmed form does not trigger the
ADC I/Q special case (it is triggered when the name contains both "adc" and
"iq" and `data_bits ≥ 25`), every combination of the four view flags and of
`rle_disable`, and every `data_bits ∈ {1, 8, 16, 33, 64, 65}`, the generated
signals tile `[0, data_bits)` with no gaps and no overlaps, and every signal
satisfies `bit_low ≤ bit_high < data_bits`. -/
theorem generate_norom_signals_tiling (pod_name : String)
    (vd vw vb vbi rle : Bool) (db : Nat)
    (hdb : db = 1 ∨ db = 8 ∨ db = 16 ∨ db = 33 ∨ db = 64 ∨ db = 65)
    (hadc : ¬(strContains (strTrim pod_name) "adc" = true
        ∧ strContains (strTrim pod_name) "iq" = true ∧ 25 ≤ db)) :
    (∀ s ∈ (generate_norom_signals pod_name db vd vw vb vbi rle).2,
        s.bit_low ≤ s.bit_high ∧ s.bit_high < db)
    ∧ (∀ b, b < db → ∃ s ∈ (generate_norom_signals pod_name db vd vw vb vbi rle).2,
        s.bit_low ≤ b ∧ b ≤ s.bit_high)
    ∧ List.Pairwise (fun s t => s.bit_high < t.bit_low ∨ t.bit_high < s.bit_low)
        (generate_norom_signals pod_name db vd vw vb vbi rle).2 := by
  have hpos : 0 < db := by rcases hdb with h|h|h|h|h|h <;> omega
  have hdb65 : db ≤ 65 := by rcases hdb with h|h|h|h|h|h <;> omega
  have hsmall : db + 31 < U16 := by
    show db + 31 < 2 ^ 16
    omega
  have hcond : (strContains (strTrim pod_name) "adc"
      && strContains (strTrim pod_name) "iq" && decide (25 ≤ db)) = false := by
    rcases Nat.lt_or_ge db 25 with h3 | h3
    · have hd : decide (25 ≤ db) = false := by
        simp [decide_eq_false_iff_not]
        omega
      simp [hd]
    · by_cases h1 : strContains (strTrim pod_name) "adc" = true
      · by_cases h2 : strContains (strTrim pod_name) "iq" = true
        · exact absurd ⟨h1, h2, h3⟩ hadc
        · simp at h2
          simp [h2]
      · simp at h1
        simp [h1]
  simp only [generate_norom_signals, hcond, Bool.false_eq_true, if_false]
  by_cases hvd : vd = true
  · simp only [hvd, if_true]
    exact windows_tile 32 db _ (by norm_num) hpos
      (by rw [Nat.mod_eq_of_lt (by omega)]; omega) _
      (fun i hi => ⟨rfl, rfl⟩)
  · replace hvd : vd = false := by simp at hvd; exact hvd
    simp only [hvd, Bool.false_eq_true, if_false]
    by_cases hvw : vw = true
    · simp only [hvw, if_true]
      exact windows_tile 16 db _ (by norm_num) hpos
        (by rw [Nat.mod_eq_of_lt (by omega)]; omega) _
        (fun i hi => ⟨rfl, rfl⟩)
    · replace hvw : vw = false := by simp at hvw; exact hvw
      simp only [hvw, Bool.false_eq_true, if_false]
      by_cases hvb : vb = true
      · simp only [hvb, if_true]
        exact windows_tile 8 db _ (by norm_num) hpos
          (by rw [Nat.mod_eq_of_lt (by omega)]; omega) _
          (fun i hi => ⟨rfl, rfl⟩)
      · replace hvb : vb = false := by simp at hvb; exact hvb
        simp only [hvb, Bool.false_eq_true, if_false]
        by_cases hvbi : vbi = true
        · simp only [hvbi, if_true]
          refine windows_tile 1 db db (by norm_num) hpos (by omega) _
            (fun i hi => ⟨?_, ?_⟩)
          · show i = i * 1
            omega
          · show i = min ((i + 1) * 1 - 1) (db - 1)
            omega
        · replace hvbi : vbi = false := by simp at hvbi; exact hvbi
          simp only [hvbi, Bool.false_eq_true, if_false]
          exact windows_tile 32 db _ (by norm_num) hpos
            (by rw [Nat.mod_eq_of_lt (by omega)]; omega) _
            (fun i hi => ⟨rfl, rfl⟩)

/-- Witness for the amended C6: the dwords view at 33 data bits on an
ordinary pod name tiles the 33 bits into windows 31:0 and 32:32. -/
theorem generate_norom_signals_tiling_witness :
    (∀ s ∈ (generate_norom_signals "sigs" 33 true false false false true).2,
        s.bit_low ≤ s.bit_high ∧ s.bit_high < 33)
    ∧ (∀ b, b < 33 → ∃ s ∈ (generate_norom_signals "sigs" 33 true false false false true).2,
        s.bit_low ≤ b ∧ b ≤ s.bit_high)
    ∧ List.Pairwise (fun s t => s.bit_high < t.bit_low ∨ t.bit_high < s.bit_low)
        (generate_norom_signals "sigs" 33 true false false false true).2 :=
  generate_norom_signals_tiling "sigs" true false false false true 33
    (Or.inr (Or.inr (Or.inr (Or.inl rfl)))) (by decide)

/-! ## Configure-trigger sequence (`post_configure_trigger`) -/

/-- `CommandResult` (ila.rs). -/
structure CommandResult where
  success : Bool
  message : String
deriving DecidableEq, Repr

/-- One uppercase hexadecimal digit. -/
def hexChar (n : Nat) : Char :=
  if n < 10 then Char.ofNat (48 + n) else Char.ofNat (55 + n)

/-- Embeds the format specifier `{:08X}` for 32-bit values. -/
def hex8 (n : Nat) : String :=
  ⟨(List.range 8).map (fun i => hexChar ((n >>> (28 - 4 * i)) &&& 0xF))⟩

/-- The trigger-type mapping of `post_configure_trigger` (ila.rs lines
585-589): `"or_falling"` and `"external"` are recognized, every other
string falls back to OR_RISING. -/
def trigCode (trigger_type : String) : Nat :=
  match trigger_type with
  | "or_falling" => TRIG_OR_FALLING
  | "external" => TRIG_EXT_RISING
  | _ => TRIG_OR_RISING

/-- The trigger-bits defaulting of `post_configure_trigger` (ila.rs line
595): zero is replaced by `0x00000001`. -/
def effTrigBits (trigger_bits : Nat) : Nat :=
  if trigger_bits = 0 then 0x00000001 else trigger_bits

/-- `post_configure_trigger` (ila.rs lines 577-622): RESET, write trigger
type, field and post-trigger count, best-effort pod 0 / hub 0 TRIG_CFG and
TRIG_EN writes whose results are discarded, INIT, ARM.  The first failing
checked step returns its step-specific message and stops issuing commands.
The 200 ms quiescing sleep after INIT has no observable effect in this
model and is not represented. -/
def post_configure_trigger (dev : Dev) (trigger_type : String)
    (trigger_bits post_trigger : Nat) : CommandResult × List Req :=
  match issueCmd dev 0 ⟨CMD_RESET, 0, 0⟩ with
  | (none, _, t1) => (⟨false, "Reset failed"⟩, t1)
  | (some _, k1, t1) =>
    let trig_type := trigCode trigger_type
    match issueCmd dev k1 ⟨CMD_WR_TRIG_TYPE, 0, trig_type⟩ with
    | (none, _, t2) => (⟨false, "Failed to set trigger type"⟩, t1 ++ t2)
    | (some _, k2, t2) =>
      let trig_bits := effTrigBits trigger_bits
      match issueCmd dev k2 ⟨CMD_WR_TRIG_DIG_FIELD, 0, trig_bits⟩ with
      | (none, _, t3) => (⟨false, "Failed to set trigger field"⟩, t1 ++ t2 ++ t3)
      | (some _, k3, t3) =>
        match issueCmd dev k3 ⟨CMD_WR_DIG_POST_TRIG, 0, post_trigger⟩ with
        | (none, _, t4) => (⟨false, "Failed to set post-trigger"⟩, t1 ++ t2 ++ t3 ++ t4)
        | (some _, k4, t4) =>
          let pod_trig_cfg := (trig_type &&& 0x07) ||| 0x20
          let w1 := write_pod_reg dev k4 0 0 POD_REG_TRIG_CFG pod_trig_cfg
          let w2 := write_pod_reg dev w1.2.1 0 0 POD_REG_TRIG_EN trig_bits
          match issueCmd dev w2.2.1 ⟨CMD_INIT, 0, 0⟩ with
          | (none, _, t7) =>
            (⟨false, "Init failed"⟩, t1 ++ t2 ++ t3 ++ t4 ++ w1.2.2 ++ w2.2.2 ++ t7)
          | (some _, k7, t7) =>
            match issueCmd dev k7 ⟨CMD_ARM, 0, 0⟩ with
            | (none, _, t8) =>
              (⟨false, "Arm failed"⟩,
                t1 ++ t2 ++ t3 ++ t4 ++ w1.2.2 ++ w2.2.2 ++ t7 ++ t8)
            | (some _, _, t8) =>
              (⟨true, "Configured: type=" ++ trigger_type ++ ", bits=0x"
                  ++ hex8 trig_bits ++ ", post=" ++ toString post_trigger⟩,
                t1 ++ t2 ++ t3 ++ t4 ++ w1.2.2 ++ w2.2.2 ++ t7 ++ t8)

/-- C7: the configure-trigger sequence.  The type mapping sends
"or_falling" to 0x03, "external" to 0x06 and everything else to OR_RISING
0x02; zero trigger bits become 0x00000001; the commands are issued in the
order RESET, WR_TRIG_TYPE, WR_TRIG_DIG_FIELD, WR_DIG_POST_TRIG, the two
ignored pod-0/hub-0 writes (TRIG_CFG = (code &&& 7) ||| 0x20, TRIG_EN),
INIT, ARM; the first failing checked step aborts with its step-specific
message and no later command is issued. -/
theorem post_configure_trigger_spec (dev : Dev) (tt : String) (bits post : Nat) :
    (tt = "or_falling" → trigCode tt = 0x03)
    ∧ (tt = "external" → trigCode tt = 0x06)
    ∧ (tt ≠ "or_falling" → tt ≠ "external" → trigCode tt = 0x02)
    ∧ (bits = 0 → effTrigBits bits = 0x00000001)
    ∧ (bits ≠ 0 → effTrigBits bits = bits)
    ∧ (dev 0 ⟨CMD_RESET, 0, 0⟩ = none →
        post_configure_trigger dev tt bits post
          = (⟨false, "Reset failed"⟩, [⟨CMD_RESET, 0, 0⟩]))
    ∧ (dev 0 ⟨CMD_RESET, 0, 0⟩ ≠ none →
       dev 1 ⟨CMD_WR_TRIG_TYPE, 0, trigCode tt⟩ = none →
        post_configure_trigger dev tt bits post
          = (⟨false, "Failed to set trigger type"⟩,
              [⟨CMD_RESET, 0, 0⟩, ⟨CMD_WR_TRIG_TYPE, 0, trigCode tt⟩]))
    ∧ (dev 0 ⟨CMD_RESET, 0, 0⟩ ≠ none →
       dev 1 ⟨CMD_WR_TRIG_TYPE, 0, trigCode tt⟩ ≠ none →
       dev 2 ⟨CMD_WR_TRIG_DIG_FIELD, 0, effTrigBits bits⟩ = none →
        post_configure_trigger dev tt bits post
          = (⟨false, "Failed to set trigger field"⟩,
              [⟨CMD_RESET, 0, 0⟩, ⟨CMD_WR_TRIG_TYPE, 0, trigCode tt⟩,
               ⟨CMD_WR_TRIG_DIG_FIELD, 0, effTrigBits bits⟩]))
    ∧ (dev 0 ⟨CMD_RESET, 0, 0⟩ ≠ none →
       dev 1 ⟨CMD_WR_TRIG_TYPE, 0, trigCode tt⟩ ≠ none →
       dev 2 ⟨CMD_WR_TRIG_DIG_FIELD, 0, effTrigBits bits⟩ ≠ none →
       dev 3 ⟨CMD_WR_DIG_POST_TRIG, 0, post⟩ = none →
        post_configure_trigger dev tt bits post
          = (⟨false, "Failed to set post-trigger"⟩,
              [⟨CMD_RESET, 0, 0⟩, ⟨CMD_WR_TRIG_TYPE, 0, trigCode tt⟩,
               ⟨CMD_WR_TRIG_DIG_FIELD, 0, effTrigBits bits⟩,
               ⟨CMD_WR_DIG_POST_TRIG, 0, post⟩]))
    ∧ (dev 0 ⟨CMD_RESET, 0, 0⟩ ≠ none →
       dev 1 ⟨CMD_WR_TRIG_TYPE, 0, trigCode tt⟩ ≠ none →
       dev 2 ⟨CMD_WR_TRIG_DIG_FIELD, 0, effTrigBits bits⟩ ≠ none →
       dev 3 ⟨CMD_WR_DIG_POST_TRIG, 0, post⟩ ≠ none →
       dev 6 ⟨CMD_INIT, 0, 0⟩ = none →
        post_configure_trigger dev tt bits post
          = (⟨false, "Init failed"⟩,
              [⟨CMD_RESET, 0, 0⟩, ⟨CMD_WR_TRIG_TYPE, 0, trigCode tt⟩,
               ⟨CMD_WR_TRIG_DIG_FIELD, 0, effTrigBits bits⟩,
               ⟨CMD_WR_DIG_POST_TRIG, 0, post⟩,
               ⟨CMD_WR_POD_REG, podAddr 0 0 POD_REG_TRIG_CFG, (trigCode tt &&& 0x07) ||| 0x20⟩,
               ⟨CMD_WR_POD_REG, podAddr 0 0 POD_REG_TRIG_EN, effTrigBits bits⟩,
               ⟨CMD_INIT, 0, 0⟩]))
    ∧ (dev 0 ⟨CMD_RESET, 0, 0⟩ ≠ none →
       dev 1 ⟨CMD_WR_TRIG_TYPE, 0, trigCode tt⟩ ≠ none →
       dev 2 ⟨CMD_WR_TRIG_DIG_FIELD, 0, effTrigBits bits⟩ ≠ none →
       dev 3 ⟨CMD_WR_DIG_POST_TRIG, 0, post⟩ ≠ none →
       dev 6 ⟨CMD_INIT, 0, 0⟩ ≠ none →
       dev 7 ⟨CMD_ARM, 0, 0⟩ = none →
        post_configure_trigger dev tt bits post
          = (⟨false, "Arm failed"⟩,
              [⟨CMD_RESET, 0, 0⟩, ⟨CMD_WR_TRIG_TYPE, 0, trigCode tt⟩,
               ⟨CMD_WR_TRIG_DIG_FIELD, 0, effTrigBits bits⟩,
               ⟨CMD_WR_DIG_POST_TRIG, 0, post⟩,
               ⟨CMD_WR_POD_REG, podAddr 0 0 POD_REG_TRIG_CFG, (trigCode tt &&& 0x07) ||| 0x20⟩,
               ⟨CMD_WR_POD_REG, podAddr 0 0 POD_REG_TRIG_EN, effTrigBits bits⟩,
               ⟨CMD_INIT, 0, 0⟩, ⟨CMD_ARM, 0, 0⟩]))
    ∧ (dev 0 ⟨CMD_RESET, 0, 0⟩ ≠ none →
       dev 1 ⟨CMD_WR_TRIG_TYPE, 0, trigCode tt⟩ ≠ none →
       dev 2 ⟨CMD_WR_TRIG_DIG_FIELD, 0, effTrigBits bits⟩ ≠ none →
       dev 3 ⟨CMD_WR_DIG_POST_TRIG, 0, post⟩ ≠ none →
       dev 6 ⟨CMD_INIT, 0, 0⟩ ≠ none →
       dev 7 ⟨CMD_ARM, 0, 0⟩ ≠ none →
        (post_configure_trigger dev tt bits post).1.success = true
        ∧ (post_configure_trigger dev tt bits post).2
          = [⟨CMD_RESET, 0, 0⟩, ⟨CMD_WR_TRIG_TYPE, 0, trigCode tt⟩,
             ⟨CMD_WR_TRIG_DIG_FIELD, 0, effTrigBits bits⟩,
             ⟨CMD_WR_DIG_POST_TRIG, 0, post⟩,
             ⟨CMD_WR_POD_REG, podAddr 0 0 POD_REG_TRIG_CFG, (trigCode tt &&& 0x07) ||| 0x20⟩,
             ⟨CMD_WR_POD_REG, podAddr 0 0 POD_REG_TRIG_EN, effTrigBits bits⟩,
             ⟨CMD_INIT, 0, 0⟩, ⟨CMD_ARM, 0, 0⟩]) := by
  refine ⟨?_, ?_, ?_, ?_, ?_, ?_, ?_, ?_, ?_, ?_, ?_, ?_⟩
  · intro h; rw [h]; rfl
  · intro h; rw [h]; rfl
  · intro h1 h2
    unfold trigCode
    split
    · exact absurd rfl h1
    · exact absurd rfl h2
    · rfl
  · intro h; unfold effTrigBits; rw [if_pos h]
  · intro h; unfold effTrigBits; rw [if_neg h]
  · intro h0
    simp [post_configure_trigger, issueCmd, h0]
  · intro h0 h1
    obtain ⟨v0, hv0⟩ := Option.ne_none_iff_exists'.mp h0
    simp [post_configure_trigger, issueCmd, hv0, h1]
  · intro h0 h1 h2
    obtain ⟨v0, hv0⟩ := Option.ne_none_iff_exists'.mp h0
    obtain ⟨v1, hv1⟩ := Option.ne_none_iff_exists'.mp h1
    simp [post_configure_trigger, issueCmd, hv0, hv1, h2]
  · intro h0 h1 h2 h3
    obtain ⟨v0, hv0⟩ := Option.ne_none_iff_exists'.mp h0
    obtain ⟨v1, hv1⟩ := Option.ne_none_iff_exists'.mp h1
    obtain ⟨v2, hv2⟩ := Option.ne_none_iff_exists'.mp h2
    simp [post_configure_trigger, issueCmd, hv0, hv1, hv2, h3]
  · intro h0 h1 h2 h3 h6
    obtain ⟨v0, hv0⟩ := Option.ne_none_iff_exists'.mp h0
    obtain ⟨v1, hv1⟩ := Option.ne_none_iff_exists'.mp h1
    obtain ⟨v2, hv2⟩ := Option.ne_none_iff_exists'.mp h2
    obtain ⟨v3, hv3⟩ := Option.ne_none_iff_exists'.mp h3
    simp [post_configure_trigger, issueCmd, write_pod_reg, hv0, hv1, hv2, hv3, h6]
  · intro h0 h1 h2 h3 h6 h7
    obtain ⟨v0, hv0⟩ := Option.ne_none_iff_exists'.mp h0
    obtain ⟨v1, hv1⟩ := Option.ne_none_iff_exists'.mp h1
    obtain ⟨v2, hv2⟩ := Option.ne_none_iff_exists'.mp h2
    obtain ⟨v3, hv3⟩ := Option.ne_none_iff_exists'.mp h3
    obtain ⟨v6, hv6⟩ := Option.ne_none_iff_exists'.mp h6
    simp [post_configure_trigger, issueCmd, write_pod_reg, hv0, hv1, hv2, hv3, hv6, h7]
  · intro h0 h1 h2 h3 h6 h7
    obtain ⟨v0, hv0⟩ := Option.ne_none_iff_exists'.mp h0
    obtain ⟨v1, hv1⟩ := Option.ne_none_iff_exists'.mp h1
    obtain ⟨v2, hv2⟩ := Option.ne_none_iff_exists'.mp h2
    obtain ⟨v3, hv3⟩ := Option.ne_none_iff_exists'.mp h3
    obtain ⟨v6, hv6⟩ := Option.ne_none_iff_exists'.mp h6
    obtain ⟨v7, hv7⟩ := Option.ne_none_iff_exists'.mp h7
    constructor
    · simp [post_configure_trigger, issueCmd, write_pod_reg, hv0, hv1, hv2, hv3, hv6, hv7]
    · simp [post_configure_trigger, issueCmd, write_pod_reg, hv0, hv1, hv2, hv3, hv6, hv7]

/-- Witness for C7: with every command accepted, configuring an external
trigger on bits 0x8 with post-trigger 128 issues the eight commands of
scenario S5 in order and succeeds. -/
theorem post_configure_trigger_spec_witness :
    (post_configure_trigger (constDev 0) "external" 8 128).1.success = true
    ∧ (post_configure_trigger (constDev 0) "external" 8 128).2
      = [⟨CMD_RESET, 0, 0⟩, ⟨CMD_WR_TRIG_TYPE, 0, 0x06⟩,
         ⟨CMD_WR_TRIG_DIG_FIELD, 0, 0x8⟩, ⟨CMD_WR_DIG_POST_TRIG, 0, 128⟩,
         ⟨CMD_WR_POD_REG, podAddr 0 0 POD_REG_TRIG_CFG, 0x26⟩,
         ⟨CMD_WR_POD_REG, podAddr 0 0 POD_REG_TRIG_EN, 0x8⟩,
         ⟨CMD_INIT, 0, 0⟩, ⟨CMD_ARM, 0, 0⟩] := by
  have h := (post_configure_trigger_spec (constDev 0) "external" 8 128).2.2.2.2.2.2.2.2.2.2.2
    (by simp [constDev]) (by simp [constDev]) (by simp [constDev])
    (by simp [constDev]) (by simp [constDev]) (by simp [constDev])
  refine ⟨h.1, ?_⟩
  rw [h.2]
  norm_num [trigCode, effTrigBits, TRIG_EXT_RISING]
  decide

/-! ## Capture (`get_capture_from_pod`) -/

/-- `CaptureStatus` (ila.rs). -/
structure CaptureStatus where
  armed : Bool
  pre_trigger : Bool
  triggered : Bool
  acquired : Bool
  init_in_progress : Bool
deriving DecidableEq, Repr

/-- `CaptureData` (ila.rs). -/
structure CaptureData where
  hub : Nat
  pod : Nat
  ts_bits : Nat
  data_bits : Nat
  status : CaptureStatus
  samples : List RleSample
  sample_count : Nat
deriving DecidableEq, Repr

/-- The sample loop of `get_capture_from_pod` (ila.rs lines 661-665):
read `n` addresses starting at `i` with call counter `k`; samples whose
read fails are silently skipped. -/
def captureLoop (dev : Dev) (hub pod ts_bits : Nat) :
    Nat → Nat → Nat → List RleSample × Nat × List Req
  | 0, _i, k => ([], k, [])
  | n + 1, i, k =>
    let r := read_rle_sample dev k hub pod i ts_bits
    let rest := captureLoop dev hub pod ts_bits n (i + 1) r.2.1
    (match r.1 with
     | some s => s :: rest.1
     | none => rest.1,
     rest.2.1, r.2.2 ++ rest.2.2)

/-- `get_capture_from_pod` (ila.rs lines 641-676): read status, read the
pod configuration, truncate the requested count to
`min (min count ram_depth) 2048`, then run the sample loop from address 0. -/
def get_capture_from_pod (dev : Dev) (hub pod count : Nat) :
    CaptureData × Nat × List Req :=
  let st := issueCmd dev 0 ⟨CMD_RD_STATUS, 0, 0⟩
  let status_val := st.1.getD 0
  let status : CaptureStatus :=
    ⟨status_val &&& 0x01 != 0, status_val &&& 0x02 != 0, status_val &&& 0x04 != 0,
     status_val &&& 0x08 != 0, status_val &&& 0x10 != 0⟩
  let cfg := get_pod_config dev st.2.1 hub pod
  let ts_bits := cfg.1.1
  let data_bits := cfg.1.2.1
  let ram_depth := cfg.1.2.2
  let sample_count := min (min count ram_depth) 2048
  let lp := captureLoop dev hub pod ts_bits sample_count 0 cfg.2.1
  (⟨hub, pod, ts_bits, data_bits, status, lp.1, sample_count⟩,
    lp.2.1, st.2.2 ++ cfg.2.2 ++ lp.2.2)

/-- A successful `read_rle_sample` returns a sample carrying the requested
address. -/
theorem read_rle_sample_shape (dev : Dev) (k hub pod a ts : Nat) :
    (read_rle_sample dev k hub pod a ts).1 = none
    ∨ ∃ c t d, (read_rle_sample dev k hub pod a ts).1 = some ⟨a, c, t, d⟩ := by
  unfold read_rle_sample
  dsimp only
  rcases h1 : read_pod_reg dev
      (write_pod_reg dev k hub pod POD_REG_RAM_PTR a).2.1 hub pod POD_REG_RAM_DATA
    with ⟨r1, k2, t2⟩
  rcases r1 with _ | lo
  · left
    rfl
  · dsimp only
    rcases h3 : read_pod_reg dev
        (write_pod_reg dev k2 hub pod POD_REG_RAM_PTR ((1 <<< 20) ||| a)).2.1
        hub pod POD_REG_RAM_DATA
      with ⟨r3, k4, t4⟩
    rcases r3 with _ | hi
    · left
      rfl
    · right
      refine ⟨(hi >>> (ts % 32)) &&& 0x3, hi &&& (shl32 1 ts - 1), lo, ?_⟩
      rfl

/-- One unfolding step of the sample loop. -/
theorem captureLoop_succ_eq (dev : Dev) (hub pod ts n i k : Nat) :
    captureLoop dev hub pod ts (n + 1) i k
      = ((match (read_rle_sample dev k hub pod i ts).1 with
          | some s => s :: (captureLoop dev hub pod ts n (i + 1)
              ((read_rle_sample dev k hub pod i ts).2.1)).1
          | none => (captureLoop dev hub pod ts n (i + 1)
              ((read_rle_sample dev k hub pod i ts).2.1)).1),
         (captureLoop dev hub pod ts n (i + 1)
             ((read_rle_sample dev k hub pod i ts).2.1)).2.1,
         (read_rle_sample dev k hub pod i ts).2.2
           ++ (captureLoop dev hub pod ts n (i + 1)
               ((read_rle_sample dev k hub pod i ts).2.1)).2.2) := rfl

/-- Invariants of the sample loop: at most one sample per address, samples
carry addresses in `[i, i + n)` in strictly increasing order, and address
`j` is present exactly when the `read_rle_sample` call made at iteration
`j` (from the call counter the loop has reached by then) succeeds. -/
theorem captureLoop_spec (dev : Dev) (hub pod ts : Nat) :
    ∀ n i k,
      (captureLoop dev hub pod ts n i k).1.length ≤ n
      ∧ (∀ s ∈ (captureLoop dev hub pod ts n i k).1, i ≤ s.address ∧ s.address < i + n)
      ∧ List.Pairwise (fun a b => a.address < b.address) (captureLoop dev hub pod ts n i k).1
      ∧ (∀ j, i ≤ j → j < i + n →
          ((∃ s ∈ (captureLoop dev hub pod ts n i k).1, s.address = j)
            ↔ (read_rle_sample dev (captureLoop dev hub pod ts (j - i) i k).2.1
                hub pod j ts).1.isSome)) := by
  intro n
  induction n with
  | zero =>
    intro i k
    refine ⟨by simp [captureLoop], by simp [captureLoop], by simp [captureLoop], ?_⟩
    intro j hj1 hj2
    omega
  | succ n ih =>
    intro i k
    obtain ⟨hlen, hmem, hpair, hiff⟩ := ih (i + 1) ((read_rle_sample dev k hub pod i ts).2.1)
    have hcounter : ∀ m, (captureLoop dev hub pod ts (m + 1) i k).2.1
        = (captureLoop dev hub pod ts m (i + 1)
            ((read_rle_sample dev k hub pod i ts).2.1)).2.1 := fun m => rfl
    have hzero : (captureLoop dev hub pod ts 0 i k).2.1 = k := rfl
    rcases read_rle_sample_shape dev k hub pod i ts with hnone | ⟨c, t, d, hsome⟩
    · have hsamp : (captureLoop dev hub pod ts (n + 1) i k).1
          = (captureLoop dev hub pod ts n (i + 1)
              ((read_rle_sample dev k hub pod i ts).2.1)).1 := by
        rw [captureLoop_succ_eq, hnone]
      refine ⟨?_, ?_, ?_, ?_⟩
      · rw [hsamp]
        exact hlen.trans (by omega)
      · intro s hs
        rw [hsamp] at hs
        have := hmem s hs
        omega
      · rw [hsamp]
        exact hpair
      · intro j hj1 hj2
        by_cases hji0 : j = i
        · subst hji0
          constructor
          · rintro ⟨s, hs, hsaddr⟩
            rw [hsamp] at hs
            have := hmem s hs
            omega
          · intro hsome2
            exfalso
            rw [show j - j = 0 from by omega, hzero, hnone] at hsome2
            simp at hsome2
        · have hlt : i < j := by omega
          rw [show j - i = (j - (i + 1)) + 1 from by omega, hcounter, hsamp]
          exact hiff j (by omega) (by omega)
    · have hsamp : (captureLoop dev hub pod ts (n + 1) i k).1
          = ⟨i, c, t, d⟩ :: (captureLoop dev hub pod ts n (i + 1)
              ((read_rle_sample dev k hub pod i ts).2.1)).1 := by
        rw [captureLoop_succ_eq, hsome]
      refine ⟨?_, ?_, ?_, ?_⟩
      · rw [hsamp, List.length_cons]
        omega
      · intro s hs
        rw [hsamp] at hs
        rcases List.mem_cons.mp hs with rfl | hs2
        · constructor
          · exact Nat.le_refl _
          · show i < i + (n + 1)
            omega
        · have := hmem s hs2
          omega
      · rw [hsamp]
        refine List.Pairwise.cons ?_ hpair
        intro u hu
        have := hmem u hu
        show i < u.address
        omega
      · intro j hj1 hj2
        by_cases hji0 : j = i
        · subst hji0
          constructor
          · intro _
            rw [show j - j = 0 from by omega, hzero, hsome]
            rfl
          · intro _
            refine ⟨⟨j, c, t, d⟩, ?_, rfl⟩
            rw [hsamp]
            exact List.mem_cons_self _ _
        · have hlt : i < j := by omega
          rw [show j - i = (j - (i + 1)) + 1 from by omega, hcounter, hsamp]
          have hiffj := hiff j (by omega) (by omega)
          constructor
          · rintro ⟨s, hs, hsaddr⟩
            rcases List.mem_cons.mp hs with rfl | hs2
            · exfalso
              simp at hsaddr
              omega
            · exact hiffj.mp ⟨s, hs2, hsaddr⟩
          · intro hsome2
            obtain ⟨s, hs, hsaddr⟩ := hiffj.mpr hsome2
            exact ⟨s, List.mem_cons_of_mem _ hs, hsaddr⟩

/-- C5: the capture handler.  With `n = min (min count ram_depth) 2048`
computed from the freshly read pod configuration, the reported
`sample_count` is `n`, at most `n` samples are returned, their addresses
are below `n` and strictly increasing, and address `j` appears exactly when
the `read_rle_sample` call the loop makes for address `j` succeeds. -/
theorem get_capture_from_pod_spec (dev : Dev) (hub pod count : Nat) :
    (get_capture_from_pod dev hub pod count).1.sample_count
      = min (min count ((get_pod_config dev 1 hub pod).1.2.2)) 2048
    ∧ (get_capture_from_pod dev hub pod count).1.samples.length
      ≤ (get_capture_from_pod dev hub pod count).1.sample_count
    ∧ (∀ s ∈ (get_capture_from_pod dev hub pod count).1.samples,
        s.address < (get_capture_from_pod dev hub pod count).1.sample_count)
    ∧ List.Pairwise (fun a b => a.address < b.address)
        (get_capture_from_pod dev hub pod count).1.samples
    ∧ (∀ j, j < (get_capture_from_pod dev hub pod count).1.sample_count →
        ((∃ s ∈ (get_capture_from_pod dev hub pod count).1.samples, s.address = j)
          ↔ (read_rle_sample dev
              (captureLoop dev hub pod ((get_pod_config dev 1 hub pod).1.1)
                j 0 ((get_pod_config dev 1 hub pod).2.1)).2.1
              hub pod j ((get_pod_config dev 1 hub pod).1.1)).1.isSome)) := by
  obtain ⟨hlen, hmem, hpair, hiff⟩ := captureLoop_spec dev hub pod
    ((get_pod_config dev 1 hub pod).1.1)
    (min (min count ((get_pod_config dev 1 hub pod).1.2.2)) 2048) 0
    ((get_pod_config dev 1 hub pod).2.1)
  have hsamples : (get_capture_from_pod dev hub pod count).1.samples
      = (captureLoop dev hub pod ((get_pod_config dev 1 hub pod).1.1)
          (min (min count ((get_pod_config dev 1 hub pod).1.2.2)) 2048) 0
          ((get_pod_config dev 1 hub pod).2.1)).1 := rfl
  have hsc : (get_capture_from_pod dev hub pod count).1.sample_count
      = min (min count ((get_pod_config dev 1 hub pod).1.2.2)) 2048 := rfl
  refine ⟨hsc, ?_, ?_, ?_, ?_⟩
  · rw [hsamples, hsc]
    exact hlen
  · intro s hs
    rw [hsamples] at hs
    rw [hsc]
    have := hmem s hs
    omega
  · rw [hsamples]
    exact hpair
  · intro j hj
    rw [hsc] at hj
    have hj' := hiff j (by omega) (by omega)
    rw [Nat.sub_zero] at hj'
    rw [hsamples]
    exact hj'

/-- A scripted capture device: status then a RAM_CFG of
`ts_bits = 4, data_bits = 4, depth_bits = 2` (so `ram_depth = 4`), then
sample reads that all succeed except the low-word read of address 1
(call index 7). -/
def capDev : Dev :=
  fun k _ => if k = 1 then some 0x04000402 else if k = 7 then none else some k

/-- Witness for C5: requesting 10 samples with `ram_depth = 4` reports
`sample_count = 4`, returns at most 4 samples, includes address 0 and
skips address 1, whose read fails. -/
theorem get_capture_from_pod_spec_witness :
    (get_capture_from_pod capDev 0 0 10).1.sample_count = 4
    ∧ (get_capture_from_pod capDev 0 0 10).1.samples.length ≤ 4
    ∧ (∃ s ∈ (get_capture_from_pod capDev 0 0 10).1.samples, s.address = 0)
    ∧ ¬(∃ s ∈ (get_capture_from_pod capDev 0 0 10).1.samples, s.address = 1) := by
  have h := get_capture_from_pod_spec capDev 0 0 10
  have hsc : (get_capture_from_pod capDev 0 0 10).1.sample_count = 4 := by
    rw [h.1]
    decide
  refine ⟨hsc, ?_, ?_, ?_⟩
  · have := h.2.1
    rw [hsc] at this
    exact this
  · refine (h.2.2.2.2 0 (by rw [hsc]; omega)).mpr ?_
    decide
  · intro hex
    have := (h.2.2.2.2 1 (by rw [hsc]; omega)).mp hex
    revert this
    decide

/-! ## Topology enumeration (`get_info`) -/

/-- `PodInfo` (ila.rs). -/
structure PodInfo where
  index : Nat
  name : String
  hw_rev : Nat
  ram_depth : Nat
  data_bits : Nat
  ts_bits : Nat
  triggerable : Nat
  rle_disable : Bool
  view_rom_en : Bool
  view_mode : String
  signals : List SignalInfo
deriving DecidableEq, Repr

/-- `HubInfo` (ila.rs). -/
structure HubInfo where
  index : Nat
  name : String
  freq_mhz : Nat
  pod_count : Nat
  pods : List PodInfo
deriving DecidableEq, Repr

/-- `IlaInfo` (ila.rs). -/
structure IlaInfo where
  connected : Bool
  hw_id : String
  revision : Nat
  hub_count : Nat
  is_armed : Bool
  is_awake : Bool
  base_addr : String
  hubs : List HubInfo
deriving DecidableEq, Repr

/-- Embeds `char::from_u32`: defined exactly on Unicode scalar values
(everything except surrogates and values above 0x10FFFF). -/
def charFromU32 (n : Nat) : Option Char :=
  if n < 0xD800 ∨ (0xE000 ≤ n ∧ n < 0x110000) then some (Char.ofNat n) else none

/-- The four big-endian bytes a successful name read contributes; a failed
read contributes nothing (ila.rs lines 144-151). -/
def nameBytes (r : Option Nat) : List Nat :=
  match r with
  | some data =>
    [(data >>> 24) &&& 0xFF, (data >>> 16) &&& 0xFF, (data >>> 8) &&& 0xFF, data &&& 0xFF]
  | none => []

/-- Lossy UTF-8 decoding of name bytes followed by trimming.  Device names
are ASCII; a byte ≥ 0x80 becomes a replacement character (the library
replaces per invalid sequence rather than per byte, indistinguishable for
the properties proved here). -/
def utf8LossyTrim (bytes : List Nat) : String :=
  strTrim ⟨bytes.map (fun b => if b < 0x80 then Char.ofNat b else '�')⟩

/-- `IlaState::read_hub_name` (ila.rs lines 140-154). -/
def read_hub_name (dev : Dev) (k hub : Nat) : String × Nat × List Req :=
  let addr := hub <<< 16
  let r1 := issueCmd dev k ⟨CMD_RD_HUB_NAME_0_3, addr, 0⟩
  let r2 := issueCmd dev r1.2.1 ⟨CMD_RD_HUB_NAME_4_7, addr, 0⟩
  let r3 := issueCmd dev r2.2.1 ⟨CMD_RD_HUB_NAME_8_11, addr, 0⟩
  (utf8LossyTrim (nameBytes r1.1 ++ nameBytes r2.1 ++ nameBytes r3.1),
    r3.2.1, r1.2.2 ++ r2.2.2 ++ r3.2.2)

/-- `IlaState::read_pod_name` (ila.rs lines 157-170). -/
def read_pod_name (dev : Dev) (k hub pod : Nat) : String × Nat × List Req :=
  let r1 := read_pod_reg dev k hub pod POD_REG_NAME_0_3
  let r2 := read_pod_reg dev r1.2.1 hub pod POD_REG_NAME_4_7
  let r3 := read_pod_reg dev r2.2.1 hub pod POD_REG_NAME_8_11
  (utf8LossyTrim (nameBytes r1.1 ++ nameBytes r2.1 ++ nameBytes r3.1),
    r3.2.1, r1.2.2 ++ r2.2.2 ++ r3.2.2)

/-- Hexadecimal digits of `n`, most significant first (empty for 0). -/
def hexDigitsAux : Nat → Nat → List Char
  | 0, _ => []
  | fuel + 1, n => if n = 0 then [] else hexDigitsAux fuel (n / 16) ++ [hexChar (n % 16)]

/-- Embeds the format specifier `{:08X}`: at least eight uppercase
hexadecimal digits, zero-padded. -/
def hexPad8 (n : Nat) : String :=
  let ds := hexDigitsAux 32 n
  ⟨if ds.length < 8 then List.replicate (8 - ds.length) '0' ++ ds else ds⟩

/-- The per-pod body of the enumeration in `get_info` (ila.rs lines
469-511): name, HW_CFG flags, RAM_CFG fields, TRIGGERABLE, and the signal
list (empty "custom" view when the view ROM is enabled). -/
def podLoop (dev : Dev) (hub : Nat) : Nat → Nat → Nat → List PodInfo × Nat × List Req
  | 0, _idx, k => ([], k, [])
  | n + 1, idx, k =>
    let pn := read_pod_name dev k hub idx
    let rHw := read_pod_reg dev pn.2.1 hub idx POD_REG_HW_CFG
    let hw_cfg := rHw.1.getD 0
    let hw_rev := (hw_cfg >>> 24) &&& 0xFF
    let norom_view_dwords := hw_cfg &&& 0x0800 != 0
    let norom_view_words := hw_cfg &&& 0x0400 != 0
    let norom_view_bytes := hw_cfg &&& 0x0200 != 0
    let norom_view_bits := hw_cfg &&& 0x0100 != 0
    let rle_disable := hw_cfg &&& 0x04 != 0
    let view_rom_en := hw_cfg &&& 0x02 != 0
    let rRam := read_pod_reg dev rHw.2.1 hub idx POD_REG_RAM_CFG
    let ram_cfg := rRam.1.getD 0
    let depth_bits := ram_cfg &&& 0xFF
    let data_bits := (ram_cfg >>> 8) &&& 0xFFFF
    let ts_bits := (ram_cfg >>> 24) &&& 0xFF
    let ram_depth := shl32 1 depth_bits
    let rTrig := read_pod_reg dev rRam.2.1 hub idx POD_REG_TRIGGERABLE
    let triggerable := rTrig.1.getD 0
    let vs := if view_rom_en then ("custom", ([] : List SignalInfo))
      else generate_norom_signals pn.1 data_bits norom_view_dwords norom_view_words
        norom_view_bytes norom_view_bits rle_disable
    let rest := podLoop dev hub n (idx + 1) rTrig.2.1
    (⟨idx, pn.1, hw_rev, ram_depth, data_bits, ts_bits, triggerable, rle_disable,
       view_rom_en, vs.1, vs.2⟩ :: rest.1,
      rest.2.1, pn.2.2 ++ rHw.2.2 ++ rRam.2.2 ++ rTrig.2.2 ++ rest.2.2)

/-- The per-hub body of the enumeration in `get_info` (ila.rs lines
458-520): name, frequency, pod count and the pod list. -/
def hubLoop (dev : Dev) : Nat → Nat → Nat → List HubInfo × Nat × List Req
  | 0, _idx, k => ([], k, [])
  | n + 1, idx, k =>
    let addr := idx <<< 16
    let nm := read_hub_name dev k idx
    let rF := issueCmd dev nm.2.1 ⟨CMD_RD_HUB_FREQ, addr, 0⟩
    let freq := rF.1.getD 0
    let freq_mhz := (freq >>> 20) &&& 0xFFF
    let rP := issueCmd dev rF.2.1 ⟨CMD_RD_POD_COUNT, addr, 0⟩
    let pod_count := (rP.1.map (fun v => v &&& 0xFF)).getD 0
    let pods := podLoop dev idx pod_count 0 rP.2.1
    let rest := hubLoop dev n (idx + 1) pods.2.1
    (⟨idx, nm.1, freq_mhz, pod_count, pods.1⟩ :: rest.1,
      rest.2.1, nm.2.2 ++ rF.2.2 ++ rP.2.2 ++ pods.2.2 ++ rest.2.2)

/-- `get_info` (ila.rs lines 432-533): read HW_INFO and CAP_STATUS directly
from the window, decode id / hub count / revision, build `hw_id` from the
two id bytes with a `'?'` fallback for invalid chars, and enumerate hubs
only when connected. -/
def get_info (dev : Dev) (mm : Nat → Nat) (base_addr : Nat) :
    IlaInfo × Nat × List Req :=
  let hw_info := (read32 ILA_SIZE mm REG_HW_INFO).getD 0
  let id := (hw_info >>> 16) &&& 0xFFFF
  let hub_count := (hw_info >>> 8) &&& 0xFF
  let revision := hw_info &&& 0xFF
  let connected := id == 0x5303
  let hw_id : String :=
    ⟨[(charFromU32 ((id >>> 8) &&& 0xFF)).getD '?',
      (charFromU32 (id &&& 0xFF)).getD '?']⟩
  let cap_status := (read32 ILA_SIZE mm REG_CAP_STATUS).getD 0
  let is_armed := cap_status &&& 0x01 != 0
  let is_awake := cap_status &&& 0x02 != 0
  let hubs := if connected then hubLoop dev hub_count 0 0 else ([], 0, [])
  (⟨connected, hw_id, revision, hub_count, is_armed, is_awake,
     "0x" ++ hexPad8 base_addr, hubs.1⟩, hubs.2.1, hubs.2.2)

/-- Every byte value is a valid Unicode scalar, so `char::from_u32` accepts
it and the `unwrap_or('?')` fallback never fires for name bytes. -/
theorem charFromU32_byte (v : Nat) (h : v < 0x100) :
    charFromU32 v = some (Char.ofNat v) := by
  unfold charFromU32
  rw [if_pos (Or.inl (by omega))]

/-- The HW_INFO load `get_info` performs. -/
def hwInfoOf (mm : Nat → Nat) : Nat :=
  (read32 ILA_SIZE mm REG_HW_INFO).getD 0

/-- A window whose HW_INFO register holds `0x00FF0000` (id byte `0xFF`). -/
def mmFF : Nat → Nat := fun off => if off = REG_HW_INFO then 0xFF0000 else 0

/-- C8 counterexample: with the HW_INFO id `0x00FF`, the low id byte `0xFF`
is not ASCII, yet `get_info` renders it as the character U+00FF - not as
`'?'` - because `char::from_u32` accepts every value below 0x110000 except
surrogates, so the `unwrap_or('?')` fallback can never fire for a byte.
The claim that `'?'` is substituted for every non-ASCII byte is false. -/
theorem get_info_hw_id_no_fallback :
    (get_info devNone mmFF 0).1.hw_id = ⟨[Char.ofNat 0, Char.ofNat 0xFF]⟩
    ∧ Char.ofNat 0xFF ≠ '?'
    ∧ ¬(0xFF : Nat) < 0x80 := by
  refine ⟨by decide, by decide, by decide⟩

/-- C8 amended: `info()` reports
`connected = (((v >> 16) & 0xFFFF) == 0x5303)` for the HW_INFO value `v`
(0 when the load fails), returns an empty hub list whenever it is not
connected, and renders `hw_id` as the two characters with code points
`(id >> 8) & 0xFF` and `id & 0xFF`; since every byte is a valid Unicode
scalar the `'?'` fallback never applies, and non-ASCII bytes are rendered
as their own code points rather than `'?'`. -/
theorem get_info_amended (dev : Dev) (mm : Nat → Nat) (base : Nat) :
    (get_info dev mm base).1.connected
      = (((hwInfoOf mm >>> 16) &&& 0xFFFF) == 0x5303)
    ∧ (((hwInfoOf mm >>> 16) &&& 0xFFFF) ≠ 0x5303 →
        (get_info dev mm base).1.hubs = [])
    ∧ (get_info dev mm base).1.hw_id
      = ⟨[Char.ofNat ((((hwInfoOf mm >>> 16) &&& 0xFFFF) >>> 8) &&& 0xFF),
          Char.ofNat (((hwInfoOf mm >>> 16) &&& 0xFFFF) &&& 0xFF)]⟩ := by
  refine ⟨rfl, ?_, ?_⟩
  · intro h
    have hbeq : (((hwInfoOf mm >>> 16) &&& 0xFFFF) == 0x5303) = false :=
      beq_eq_false_iff_ne.mpr h
    show (if ((((read32 ILA_SIZE mm REG_HW_INFO).getD 0 >>> 16) &&& 0xFFFF) == 0x5303)
        then hubLoop dev (((read32 ILA_SIZE mm REG_HW_INFO).getD 0 >>> 8) &&& 0xFF) 0 0
        else ([], 0, [])).1 = []
    rw [show (read32 ILA_SIZE mm REG_HW_INFO).getD 0 = hwInfoOf mm from rfl, hbeq]
    rfl
  · have h1 : (((hwInfoOf mm >>> 16) &&& 0xFFFF) >>> 8) &&& 0xFF < 0x100 := by
      have := Nat.and_le_right (n := ((hwInfoOf mm >>> 16) &&& 0xFFFF) >>> 8) (m := 0xFF)
      omega
    have h2 : ((hwInfoOf mm >>> 16) &&& 0xFFFF) &&& 0xFF < 0x100 := by
      have := Nat.and_le_right (n := (hwInfoOf mm >>> 16) &&& 0xFFFF) (m := 0xFF)
      omega
    have e : (get_info dev mm base).1.hw_id
        = (⟨[(charFromU32 ((((hwInfoOf mm >>> 16) &&& 0xFFFF) >>> 8) &&& 0xFF)).getD '?',
            (charFromU32 (((hwInfoOf mm >>> 16) &&& 0xFFFF) &&& 0xFF)).getD '?']⟩ : String) := rfl
    rw [e, charFromU32_byte _ h1, charFromU32_byte _ h2]
    rfl

/-- Witness for the amended C8: an offline window (HW_INFO id `0x00FF`)
reports `connected = false` and an empty hub list. -/
theorem get_info_amended_witness :
    (get_info devNone mmFF 0).1.connected = false
    ∧ (get_info devNone mmFF 0).1.hubs = [] := by
  have h := get_info_amended devNone mmFF 0
  constructor
  · rw [h.1]
    decide
  · exact h.2.1 (by decide)
